import Mathlib

/-!
Verification development for the `xtralien` instrument-client library
(`src/xtralien/__init__.py`).  The Python source is shallowly embedded:
pure functions become Lean functions, Python floats are modelled as exact
rationals (every numeral appearing in the verified properties is exactly
representable), fallible code returns `Option`/`Except`, and the mutable
device/connection state is passed explicitly.
-/

/-! ## Python exceptions and values relevant to the embedded fragment -/

inductive PyErr where
  | valueError
  | typeError
  | attributeError
  | connectionError
deriving DecidableEq, Repr

/-- Values produced by the response formatters: `None`, strings, floats
(modelled as `ℚ`), 1-D and 2-D numeric lists (the numpy-absent fallback of
`process_array`/`process_matrix`), and lists of strings (the multi-line
branch of `process_auto`). -/
inductive PyValue where
  | none
  | str (s : String)
  | num (q : ℚ)
  | arr (xs : List ℚ)
  | mat (xss : List (List ℚ))
  | strs (xs : List String)
deriving DecidableEq, Repr

instance {ε α : Type} [DecidableEq ε] [DecidableEq α] :
    DecidableEq (Except ε α) := fun a b =>
  match a, b with
  | .ok x, .ok y =>
    match decEq x y with
    | isTrue h => isTrue (by rw [h])
    | isFalse h => isFalse (by intro hc; cases hc; exact h rfl)
  | .error x, .error y =>
    match decEq x y with
    | isTrue h => isTrue (by rw [h])
    | isFalse h => isFalse (by intro hc; cases hc; exact h rfl)
  | .ok _, .error _ => isFalse (by intro hc; cases hc)
  | .error _, .ok _ => isFalse (by intro hc; cases hc)

/-! ## String helpers embedding Python `str.strip(chars)` and `str.split(sep)` -/

/-- Python `x.strip(cut)`: remove characters of `cut` from both ends. -/
def pyStripL (cut : List Char) (l : List Char) : List Char :=
  ((l.dropWhile (fun c => cut.contains c)).reverse.dropWhile
    (fun c => cut.contains c)).reverse

/-- Python `x.split(sep)` for a single-character separator: always returns
at least one (possibly empty) piece. -/
def splitOnChar (sep : Char) : List Char → List (List Char)
  | [] => [[]]
  | c :: cs =>
    let r := splitOnChar sep cs
    if c = sep then [] :: r
    else
      match r with
      | h :: t => (c :: h) :: t
      | [] => [[c]]

/-! ## The response grammars

The source compiles three regular expressions from
`number_regex = (\-|\+)?[0-9]+(\.[0-9]+)?(e-?[0-9]+(\.[0-9]+)?)?`:
`re_matrix = (\[(number,number(;?))+\])\n?`,
`re_array = (\[(number(;?))+\])\n?`, and `re_number = number\n?`,
each used with `fullmatch`.  We embed each `fullmatch` test as a
deterministic recognizer; determinization is sound here because every
choice point of the regex (shorter digit runs, skipping the optional
fraction/exponent/semicolon) leaves a remainder beginning with a character
that no continuation of these patterns can consume. -/

/-- Consume `[0-9]+` (at least one digit), returning the rest. -/
def digitsSpan (s : List Char) : Option (List Char) :=
  if (s.takeWhile Char.isDigit).isEmpty then none
  else some (s.dropWhile Char.isDigit)

/-- Consume the optional leading sign `(\-|\+)?`. -/
def dropSign : List Char → List Char
  | c :: cs => if c = '-' ∨ c = '+' then cs else c :: cs
  | [] => []

/-- Consume the optional fraction `(\.[0-9]+)?`. -/
def matchOptFrac (s : List Char) : List Char :=
  match s with
  | '.' :: cs =>
    match digitsSpan cs with
    | some r => r
    | none => s
  | _ => s

/-- Consume the optional exponent `(e-?[0-9]+(\.[0-9]+)?)?`; note the
source regex only admits a minus sign on the exponent. -/
def matchOptExp (s : List Char) : List Char :=
  match s with
  | 'e' :: cs =>
    let cs2 :=
      match cs with
      | '-' :: t => t
      | _ => cs
    match digitsSpan cs2 with
    | some r => matchOptFrac r
    | none => s
  | _ => s

/-- Consume one `number_regex` occurrence, returning the rest. -/
def matchNumber (s : List Char) : Option (List Char) :=
  match digitsSpan (dropSign s) with
  | some r => some (matchOptExp (matchOptFrac r))
  | none => none

/-- Consume `({number}(;?))+` (the body of `re_array`), fuelled by the
input length (each iteration consumes at least one character). -/
def matchItems : ℕ → List Char → Option (List Char)
  | 0, _ => none
  | fuel + 1, s =>
    match matchNumber s with
    | none => none
    | some r =>
      let r2 :=
        match r with
        | ';' :: cs => cs
        | _ => r
      match matchItems fuel r2 with
      | some r3 => some r3
      | none => some r2

/-- Consume `({number},{number}(;?))+` (the body of `re_matrix`). -/
def matchPairs : ℕ → List Char → Option (List Char)
  | 0, _ => none
  | fuel + 1, s =>
    match matchNumber s with
    | none => none
    | some r =>
      match r with
      | ',' :: cs =>
        match matchNumber cs with
        | none => none
        | some r2 =>
          let r3 :=
            match r2 with
            | ';' :: cs2 => cs2
            | _ => r2
          match matchPairs fuel r3 with
          | some r4 => some r4
          | none => some r3
      | _ => none

/-- The trailing `\n?` before the end of a `fullmatch`. -/
def optNewlineEnd : List Char → Bool
  | [] => true
  | ['\n'] => true
  | _ => false

/-- `re_number.fullmatch(s)` as a Boolean test. -/
def re_number_fullmatch (s : List Char) : Bool :=
  match matchNumber s with
  | some r => optNewlineEnd r
  | none => false

/-- `re_array.fullmatch(s)` as a Boolean test. -/
def re_array_fullmatch (s : List Char) : Bool :=
  match s with
  | '[' :: cs =>
    match matchItems cs.length cs with
    | some (']' :: r) => optNewlineEnd r
    | _ => false
  | _ => false

/-- `re_matrix.fullmatch(s)` as a Boolean test. -/
def re_matrix_fullmatch (s : List Char) : Bool :=
  match s with
  | '[' :: cs =>
    match matchPairs cs.length cs with
    | some (']' :: r) => optNewlineEnd r
    | _ => false
  | _ => false

/-! ## Python `float()` on the textual fragment the client meets,
modelled over exact rationals. -/

/-- Numeric value of a digit string, most significant digit first. -/
def digitsNat (ds : List Char) : ℕ :=
  ds.foldl (fun n c => 10 * n + (c.toNat - 48)) 0

def isPySpace (c : Char) : Bool :=
  c = ' ' || c = '\n' || c = '\t' || c = '\r'

/-- Exponent part after the `e`/`E`: an optionally signed integer.
`mnum` is the signed mantissa numerator and `fracLen` the number of
fraction digits; the result is assembled by one `mkRat` so that the value
is computable by kernel reduction. -/
def pyFloatExp (mnum : ℤ) (fracLen : ℕ) (cs : List Char) : Option ℚ :=
  let neg : Bool :=
    match cs with
    | '-' :: _ => true
    | _ => false
  let cs2 :=
    match cs with
    | '-' :: t => t
    | '+' :: t => t
    | _ => cs
  let eds := cs2.takeWhile Char.isDigit
  let rest := cs2.dropWhile Char.isDigit
  if eds.isEmpty || !rest.isEmpty then none
  else if neg then some (mkRat mnum (10 ^ (fracLen + digitsNat eds)))
  else some (mkRat (mnum * 10 ^ digitsNat eds) (10 ^ fracLen))

/-- Signed decimal literal `digits[.digits][ (e|E) [sign]digits ]` after
the optional leading sign `sgn`, requiring at least one digit in the
mantissa (Python accepts `1.` and `.5`). -/
def pyFloatSigned (sgn : ℤ) (s : List Char) : Option ℚ :=
  let ip := s.takeWhile Char.isDigit
  let s1 := s.dropWhile Char.isDigit
  let fp :=
    match s1 with
    | '.' :: cs => cs.takeWhile Char.isDigit
    | _ => []
  let s2 :=
    match s1 with
    | '.' :: cs => cs.dropWhile Char.isDigit
    | _ => s1
  if ip.isEmpty && fp.isEmpty then none
  else
    let mnum : ℤ := sgn * (digitsNat (ip ++ fp) : ℤ)
    match s2 with
    | [] => some (mkRat mnum (10 ^ fp.length))
    | 'e' :: cs => pyFloatExp mnum fp.length cs
    | 'E' :: cs => pyFloatExp mnum fp.length cs
    | _ => none

/-- Strip the surrounding whitespace that Python `float` tolerates. -/
def pyStripWS (s : List Char) : List Char :=
  ((s.dropWhile isPySpace).reverse.dropWhile isPySpace).reverse

/-- The optional leading sign of a Python `float` literal. -/
def pyFloatNoWS : List Char → Option ℚ
  | '-' :: cs => pyFloatSigned (-1) cs
  | '+' :: cs => pyFloatSigned 1 cs
  | s => pyFloatSigned 1 s

/-- Python `float(s)`: strips surrounding whitespace, then parses an
optionally signed decimal literal; `none` models a raised `ValueError`. -/
def pyFloat (s0 : List Char) : Option ℚ :=
  pyFloatNoWS (pyStripWS s0)

/-! ## The response formatters (`process_strip` / `process_array` /
`process_matrix` / `process_auto` and the `formatters` registry). -/

/-- The strip set `'\n[];'` shared by `process_strip`, `process_array`
and `process_matrix`. -/
def strip_set : List Char := ['\n', '[', ']', ';']

/-- The strip set `'\n;[]'` of the multi-line branch of `process_auto`
(same four characters). -/
def auto_strip_set : List Char := ['\n', ';', '[', ']']

def process_strip (x : String) : String :=
  ⟨pyStripL strip_set x.data⟩

/-- `[float(y) for y in pieces]`; `none` models a `ValueError`. -/
def floatList : List (List Char) → Option (List ℚ)
  | [] => some []
  | x :: xs =>
    match pyFloat x, floatList xs with
    | some q, some qs => some (q :: qs)
    | _, _ => none

def process_array (x : String) : Except PyErr PyValue :=
  match floatList (splitOnChar ';' (pyStripL strip_set x.data)) with
  | some ds => .ok (.arr ds)
  | none => .error .valueError

def floatMat : List (List Char) → Option (List (List ℚ))
  | [] => some []
  | row :: rows =>
    match floatList (splitOnChar ',' row), floatMat rows with
    | some r, some rs => some (r :: rs)
    | _, _ => none

def process_matrix (x : String) : Except PyErr PyValue :=
  match floatMat (splitOnChar ';' (pyStripL strip_set x.data)) with
  | some rows => .ok (.mat rows)
  | none => .error .valueError

/-- `process_auto`: `None` passes through; otherwise try the matrix,
array and number grammars in order, then the multi-line split, else
return the text unchanged. -/
def process_auto (x : Option String) : Except PyErr PyValue :=
  match x with
  | .none => .ok .none
  | some x =>
    if re_matrix_fullmatch x.data then process_matrix x
    else if re_array_fullmatch x.data then process_array x
    else if re_number_fullmatch x.data then
      match pyFloat x.data with
      | some q => .ok (.num q)
      | none => .error .valueError
    else if '\n' ∈ x.data then
      let parts := splitOnChar '\n' (pyStripL auto_strip_set x.data)
      if parts.length < 2 then .ok (.str ⟨parts.headD []⟩)
      else .ok (.strs (parts.map (fun p => (⟨p⟩ : String))))
    else .ok (.str x)

/-- `Device._default_formatter` (identity); also the `'none'` formatter.
A `None` argument passes through, any string is returned as text. -/
def fmt_default : Option String → Except PyErr PyValue
  | .none => .ok .none
  | some s => .ok (.str s)

/-- The `'number'` formatter `lambda x: float(x)`; `float(None)` raises
`TypeError`. -/
def fmt_number : Option String → Except PyErr PyValue
  | .none => .error .typeError
  | some s =>
    match pyFloat s.data with
    | some q => .ok (.num q)
    | none => .error .valueError

/-- The `'strip'` formatter; `None.strip` raises `AttributeError`. -/
def fmt_strip : Option String → Except PyErr PyValue
  | .none => .error .attributeError
  | some s => .ok (.str (process_strip s))

def fmt_array : Option String → Except PyErr PyValue
  | .none => .error .attributeError
  | some s => process_array s

def fmt_matrix : Option String → Except PyErr PyValue
  | .none => .error .attributeError
  | some s => process_matrix s

/-- `Device.formatters.get(format, Device._default_formatter)`: the fixed
name-keyed registry with fallback to the identity formatter. -/
def formatters_get (format : String) : Option String → Except PyErr PyValue :=
  if format = "strip" then fmt_strip
  else if format = "array" then fmt_array
  else if format = "matrix" then fmt_matrix
  else if format = "number" then fmt_number
  else if format = "none" then fmt_default
  else if format = "auto" then process_auto
  else fmt_default

/-! ## Transports (`Connection` variants) and the Device dispatch pipeline

`SocketConnection.read(wait)` drains every buffered chunk (blocking first
for one chunk when `wait` is true); `SerialConnection.read(wait)` returns
one buffered line when `wait` is true and the empty string otherwise.  In
this timeless model the instrument's pending data is `buffered`, assumed
already available, so a socket read returns it for either `wait` value
while a serial read returns it only when waiting.  A connection-level
failure of the underlying stream is modelled by the `failWrite` /
`failRead` flags. -/

inductive ConnKind where
  | socket
  | serial
deriving DecidableEq, Repr

structure Conn where
  kind : ConnKind
  buffered : String
  failWrite : Bool
  failRead : Bool
  closed : Bool
deriving DecidableEq, Repr

def Conn.read (c : Conn) (wait : Bool) : String :=
  match c.kind with
  | .socket => c.buffered
  | .serial => if wait then c.buffered else ""

def Conn.close (c : Conn) : Conn :=
  ⟨c.kind, c.buffered, c.failWrite, c.failRead, true⟩

/-- The Device state visible to the dispatch pipeline: its ordered
transport list.  (The in-flight lock is modelled separately as a lock
automaton, and the worker pool by `Device.callAsync`.) -/
structure Device where
  connections : List Conn
deriving DecidableEq, Repr

/-- Raw outcome of `Device.command`: the device state afterwards, the
returned value or raised exception, the payloads of the successful
`write` calls, and the transports closed during the call. -/
structure CmdOutcome where
  dev : Device
  result : Except PyErr (Option String)
  writes : List String
  closedConns : List Conn
deriving DecidableEq, Repr

/-- `Device.command(command, returns, sleep_time)`: iterate over the
connection list; the first iteration writes the command and returns that
connection's read, so only the lead transport is ever used.  A
`ConnectionError` raised by `write` or `read` closes the failing
transport, removes it from the list and re-raises; with no connections
the loop body never runs, the failure is only logged, and `None` is
returned.  The pre-send `time.sleep` has no observable effect here. -/
def Device.command (dev : Device) (cmd : String) (returns : Bool) : CmdOutcome :=
  match dev.connections with
  | [] => ⟨dev, .ok none, [], []⟩
  | c :: rest =>
    if c.failWrite then ⟨⟨rest⟩, .error .connectionError, [], [c.close]⟩
    else if c.failRead then ⟨⟨rest⟩, .error .connectionError, [cmd], [c.close]⟩
    else ⟨dev, .ok (some (c.read returns)), [cmd], []⟩

/-- A command token: `Device.__call__` applies `str` to each argument, so
tokens are strings or values with a string rendering (indexing admits
integers, e.g. `device[1]`). -/
inductive Token where
  | str (v : String)
  | int (v : ℤ)
deriving DecidableEq, Repr

def Token.toStr : Token → String
  | .str v => v
  | .int v => toString v

/-- Formatted outcome of a full `Device.__call__`. -/
structure CallOutcome where
  dev : Device
  result : Except PyErr PyValue
  writes : List String
  closedConns : List Conn
deriving DecidableEq, Repr

/-- The synchronous branch of `Device.__call__` (no callback, no
`spawn_thread`, hence `returns = bool(response)`): join the arguments
with single spaces, pick the formatter from the registry (identity when
no response is requested), run `Device.command` under the in-flight lock
and apply the formatter to the raw response; an exception raised by
`command` propagates before any formatting. -/
def Device.call (dev : Device) (args : List Token) (format : String)
    (response : Bool) : CallOutcome :=
  let returns := response
  let cmd := String.intercalate " " (args.map Token.toStr)
  let formatter := if returns then formatters_get format else fmt_default
  let out := dev.command cmd returns
  match out.result with
  | .ok v => ⟨out.dev, formatter v, out.writes, out.closedConns⟩
  | .error e => ⟨out.dev, .error e, out.writes, out.closedConns⟩

/-- `Device._async_call`, the body submitted to the worker pool:
`formatter(self.command(command, returns=True))` under the in-flight
lock.  Note the hard-coded `returns=True` and default sleep. -/
def Device.asyncCall (dev : Device) (cmd : String)
    (formatter : Option String → Except PyErr PyValue) : CallOutcome :=
  let out := dev.command cmd true
  match out.result with
  | .ok v => ⟨out.dev, formatter v, out.writes, out.closedConns⟩
  | .error e => ⟨out.dev, .error e, out.writes, out.closedConns⟩

/-- The asynchronous branch of `Device.__call__` (taken when
`spawn_thread` is set or a callback is supplied): the formatter is chosen
from `returns = bool(response or callback)` exactly as in the synchronous
branch, then `_async_call` is submitted to the pool; we model the eventual
result carried by the returned future. -/
def Device.callAsync (dev : Device) (args : List Token) (format : String)
    (response : Bool) (callback : Bool) : CallOutcome :=
  let returns := response || callback
  let cmd := String.intercalate " " (args.map Token.toStr)
  let formatter := if returns then formatters_get format else fmt_default
  dev.asyncCall cmd formatter

/-! ## The CommandBuilder

`CommandBuilder.__getattribute__` / `__getitem__` append one token to the
builder's `command` list IN PLACE and return the same object, so every
reference to one builder shares its mutations, while `dup()` allocates a
new builder over `list(self.command)` — a copy.  To capture this aliasing
we model the builder heap explicitly: a store of token lists indexed by
allocation order, with `builderStep` mutating one cell and `builderDup`
allocating a fresh cell holding a copy. -/

abbrev BuilderStore := List (List Token)

/-- One step operation (attribute access or indexing) on builder `i`:
append the token to that builder's command list, in place. -/
def builderStep (store : BuilderStore) (i : ℕ) (t : Token) : BuilderStore :=
  store.set i (store.getD i [] ++ [t])

/-- `CommandBuilder.dup()` on builder `i`: allocate a new builder holding
a copy of the current token list; returns the updated store and the new
builder's index. -/
def builderDup (store : BuilderStore) (i : ℕ) : BuilderStore × ℕ :=
  (store ++ [store.getD i []], store.length)

/-- `CommandBuilder.__call__(*args)`: `self.device(*self.command, *args)`
— accumulated tokens first, call-time arguments after. -/
def builderInvoke (dev : Device) (tokens : List Token) (args : List Token)
    (format : String) (response : Bool) : CallOutcome :=
  dev.call (tokens ++ args) format response

/-! ## The serial-number bit packing (`Device.serial` getter/setter) -/

/-- The setter's packing: mask each field and OR it in at its fixed
offset (board at 0, week at 16, year at 22, model at 30, product at 38),
starting from `0x000000000000`. -/
def serialPack (board week year model product : ℕ) : ℕ :=
  ((((0 ||| (board &&& 0xffff)) ||| ((week &&& 0x3f) <<< 16)) |||
    ((year &&& 0xff) <<< 22)) ||| ((model &&& 0xff) <<< 30)) |||
    ((product &&& 0x3ff) <<< 38)

/-- The getter's decoding of the 48-bit serial word, with the source's
literal masks and shifts. -/
def serialUnpackBoard (s : ℕ) : ℕ := s &&& 0x00000000FFFF

def serialUnpackWeek (s : ℕ) : ℕ := (s &&& 0x0000003F0000) >>> 16

def serialUnpackYear (s : ℕ) : ℕ := (s &&& 0x00003FC00000) >>> 22

def serialUnpackModel (s : ℕ) : ℕ := (s &&& 0x003FC0000000) >>> 30

def serialUnpackProduct (s : ℕ) : ℕ := (s &&& 0xFFC000000000) >>> 38

/-! ## Discovery (`Device.discover`)

The probe is broadcast once; then the loop receives datagrams with a
socket timeout of `timeout` seconds, resetting the inactivity window on
every reply, and appends one `Device(addr=ip, port=8888)` PER DATAGRAM
received.  We model the network trace as the list of reply datagrams in
arrival order, each carrying its source address and the time gap since
the previous activity; a gap exceeding `timeout` fires `socket.timeout`
and ends collection.  A returned Device is modelled by its constructor
arguments `(address, port)`. -/

structure Reply where
  gap : ℚ
  addr : String
deriving DecidableEq, Repr

/-- Source addresses accepted inside the sliding inactivity window. -/
def repliesWithin (timeout : ℚ) : List Reply → List String
  | [] => []
  | r :: rs =>
    if r.gap ≤ timeout then r.addr :: repliesWithin timeout rs else []

/-- `Device.discover`: one `Device(addr, 8888)` per accepted datagram. -/
def discover (timeout : ℚ) (replies : List Reply) : List (String × ℕ) :=
  (repliesWithin timeout replies).map (fun a => (a, 8888))

/-! ## The in-flight lock: mutual exclusion of write+read cycles

Both I/O paths hold `_in_progress_lock` for the entire write+read cycle:
the synchronous branch of `__call__` runs
`with self._in_progress_lock: formatter(self.command(...))` and the
pool-executed `_async_call` has the same shape, so a caller thread and a
pool worker both execute acquire → write → read → release.  We model two
concurrent callers as a lock automaton and prove that no reachable state
has both threads inside the write+read cycle. -/

inductive LockPC where
  | start
  | acquired
  | written
  | readDone
  | finished
deriving DecidableEq, Repr

structure LockState where
  owner : Option (Fin 2)
  pc : Fin 2 → LockPC

def setPC (pc : Fin 2 → LockPC) (t : Fin 2) (v : LockPC) : Fin 2 → LockPC :=
  fun u => if u = t then v else pc u

def LockState.init : LockState := ⟨none, fun _ => .start⟩

/-- One interleaving step of either thread: `threading.Lock` acquisition
blocks while another thread owns the lock; write and read happen inside
the held region; release frees the lock. -/
inductive LockStep : LockState → LockState → Prop where
  | acquire (s : LockState) (t : Fin 2) (h : s.pc t = .start)
      (ho : s.owner = none) :
      LockStep s ⟨some t, setPC s.pc t .acquired⟩
  | write (s : LockState) (t : Fin 2) (h : s.pc t = .acquired) :
      LockStep s ⟨s.owner, setPC s.pc t .written⟩
  | read (s : LockState) (t : Fin 2) (h : s.pc t = .written) :
      LockStep s ⟨s.owner, setPC s.pc t .readDone⟩
  | release (s : LockState) (t : Fin 2) (h : s.pc t = .readDone) :
      LockStep s ⟨none, setPC s.pc t .finished⟩

def LockReachable (s : LockState) : Prop :=
  Relation.ReflTransGen LockStep LockState.init s

/-- A thread is inside its command's write+read cycle (transport I/O
pending or in progress) at these program points. -/
def inCritical (p : LockPC) : Prop :=
  p = .acquired ∨ p = .written ∨ p = .readDone

instance (p : LockPC) : Decidable (inCritical p) := by
  unfold inCritical; infer_instance

/-! ## Helper lemmas about character spans -/

theorem takeWhile_all {p : Char → Bool} :
    ∀ {l : List Char}, (∀ c ∈ l, p c = true) → l.takeWhile p = l := by
  intro l h
  induction l with
  | nil => rfl
  | cons a t ih =>
    rw [List.takeWhile_cons_of_pos (h a (List.mem_cons_self a t))]
    rw [ih (fun c hc => h c (List.mem_cons_of_mem a hc))]

theorem dropWhile_all {p : Char → Bool} :
    ∀ {l : List Char}, (∀ c ∈ l, p c = true) → l.dropWhile p = [] := by
  intro l h
  induction l with
  | nil => rfl
  | cons a t ih =>
    rw [List.dropWhile_cons_of_pos (h a (List.mem_cons_self a t))]
    exact ih (fun c hc => h c (List.mem_cons_of_mem a hc))

theorem takeWhile_eq_nil_of_head {p : Char → Bool} {l : List Char}
    (h : ∀ c t, l = c :: t → p c = false) : l.takeWhile p = [] := by
  cases l with
  | nil => rfl
  | cons a t => exact List.takeWhile_cons_of_neg (by simp [h a t rfl])

theorem dropWhile_eq_self_of_head {p : Char → Bool} {l : List Char}
    (h : ∀ c t, l = c :: t → p c = false) : l.dropWhile p = l := by
  cases l with
  | nil => rfl
  | cons a t => exact List.dropWhile_cons_of_neg (by simp [h a t rfl])

/-- `digitsSpan` consumes a non-empty all-digit block exactly when the
remainder does not begin with a digit. -/
theorem digitsSpan_append {ds rest : List Char} (hne : ds ≠ [])
    (hds : ∀ c ∈ ds, c.isDigit = true)
    (hrest : ∀ c t, rest = c :: t → c.isDigit = false) :
    digitsSpan (ds ++ rest) = some rest := by
  unfold digitsSpan
  rw [List.takeWhile_append_of_pos (by simpa using hds),
    List.dropWhile_append_of_pos (by simpa using hds)]
  rw [takeWhile_eq_nil_of_head hrest, dropWhile_eq_self_of_head hrest,
    List.append_nil]
  obtain ⟨c, t, rfl⟩ := List.exists_cons_of_ne_nil hne
  rfl

theorem isPySpace_of_digit {c : Char} (h : c.isDigit = true) :
    isPySpace c = false := by
  unfold isPySpace
  rcases eq_or_ne c ' ' with rfl | h1
  · exact absurd h (by decide)
  rcases eq_or_ne c '\n' with rfl | h2
  · exact absurd h (by decide)
  rcases eq_or_ne c '\t' with rfl | h3
  · exact absurd h (by decide)
  rcases eq_or_ne c '\r' with rfl | h4
  · exact absurd h (by decide)
  simp [h1, h2, h3, h4]

theorem digit_ne_newline {c : Char} (h : c.isDigit = true) : c ≠ '\n' := by
  rintro rfl
  exact absurd h (by decide)

/-! ## Evaluation lemmas for number-shaped inputs -/

theorem re_matrix_fullmatch_of_head {c : Char} {t : List Char} (h : c ≠ '[') :
    re_matrix_fullmatch (c :: t) = false := by
  unfold re_matrix_fullmatch
  split
  · rename_i heq
    injection heq with ha hb
    exact absurd ha h
  · rfl

theorem re_array_fullmatch_of_head {c : Char} {t : List Char} (h : c ≠ '[') :
    re_array_fullmatch (c :: t) = false := by
  unfold re_array_fullmatch
  split
  · rename_i heq
    injection heq with ha hb
    exact absurd ha h
  · rfl

theorem optNewlineEnd_of_head {c : Char} {t : List Char} (h : c ≠ '\n') :
    optNewlineEnd (c :: t) = false := by
  unfold optNewlineEnd
  split
  · rename_i heq
    cases heq
  · rename_i heq
    injection heq with ha hb
    exact absurd ha h
  · rfl

theorem dropSign_of_digit {c : Char} {t : List Char} (h : c.isDigit = true) :
    dropSign (c :: t) = c :: t := by
  show (if c = '-' ∨ c = '+' then t else c :: t) = c :: t
  rw [if_neg]
  rintro (rfl | rfl) <;> exact absurd h (by decide)

/-- `matchNumber` on `digits e- digits` consumes everything. -/
theorem matchNumber_expNeg {d1 d2 : List Char} (h1 : d1 ≠ []) (h2 : d2 ≠ [])
    (hd1 : ∀ c ∈ d1, c.isDigit = true) (hd2 : ∀ c ∈ d2, c.isDigit = true) :
    matchNumber (d1 ++ 'e' :: '-' :: d2) = some [] := by
  obtain ⟨c, t, rfl⟩ := List.exists_cons_of_ne_nil h1
  unfold matchNumber
  rw [List.cons_append, dropSign_of_digit (hd1 c (List.mem_cons_self c t)),
    ← List.cons_append]
  rw [digitsSpan_append h1 hd1 (by intro c' t' h; injection h with ha hb; subst ha; decide)]
  have hspan : digitsSpan d2 = some [] := by
    have := @digitsSpan_append d2 [] h2 hd2 (by intro c' t' h; cases h)
    rwa [List.append_nil] at this
  show some (matchOptExp (matchOptFrac ('e' :: '-' :: d2))) = some []
  rw [show matchOptFrac ('e' :: '-' :: d2) = 'e' :: '-' :: d2 from rfl]
  have hexp : matchOptExp ('e' :: '-' :: d2) = matchOptFrac [] := by
    show (match digitsSpan d2 with
      | some r => matchOptFrac r
      | none => 'e' :: '-' :: d2) = matchOptFrac []
    rw [hspan]
  rw [hexp]
  rfl

/-- `matchNumber` on `digits e+ digits` stops at the `e`: the source
regex admits no plus sign on the exponent. -/
theorem matchNumber_expPos {d1 d2 : List Char} (h1 : d1 ≠ [])
    (hd1 : ∀ c ∈ d1, c.isDigit = true) :
    matchNumber (d1 ++ 'e' :: '+' :: d2) = some ('e' :: '+' :: d2) := by
  obtain ⟨c, t, rfl⟩ := List.exists_cons_of_ne_nil h1
  unfold matchNumber
  rw [List.cons_append, dropSign_of_digit (hd1 c (List.mem_cons_self c t)),
    ← List.cons_append]
  rw [digitsSpan_append h1 hd1 (by intro c' t' h; injection h with ha hb; subst ha; decide)]
  show some (matchOptExp (matchOptFrac ('e' :: '+' :: d2))) = some ('e' :: '+' :: d2)
  rw [show matchOptFrac ('e' :: '+' :: d2) = 'e' :: '+' :: d2 from rfl]
  have hexp : matchOptExp ('e' :: '+' :: d2) = 'e' :: '+' :: d2 := by
    show (match digitsSpan ('+' :: d2) with
      | some r => matchOptFrac r
      | none => 'e' :: '+' :: d2) = 'e' :: '+' :: d2
    rfl
  rw [hexp]

theorem pyStripWS_of_ends {s : List Char}
    (hhead : ∀ c t, s = c :: t → isPySpace c = false)
    (hlast : ∀ c t, s.reverse = c :: t → isPySpace c = false) :
    pyStripWS s = s := by
  unfold pyStripWS
  rw [dropWhile_eq_self_of_head hhead, dropWhile_eq_self_of_head hlast,
    List.reverse_reverse]

theorem pyFloatNoWS_of_digit {c : Char} {t : List Char} (h : c.isDigit = true) :
    pyFloatNoWS (c :: t) = pyFloatSigned 1 (c :: t) := by
  unfold pyFloatNoWS
  split
  · rename_i heq
    injection heq with ha hb
    subst ha
    exact absurd h (by decide)
  · rename_i heq
    injection heq with ha hb
    subst ha
    exact absurd h (by decide)
  · rfl

/-- Evaluation of `pyFloatExp` on a minus sign followed by digits. -/
theorem pyFloatExp_neg_digits {mnum : ℤ} {fracLen : ℕ} {d2 : List Char}
    (h2 : d2 ≠ []) (hd2 : ∀ c ∈ d2, c.isDigit = true) :
    pyFloatExp mnum fracLen ('-' :: d2) =
      some (mkRat mnum (10 ^ (fracLen + digitsNat d2))) := by
  show (if (d2.takeWhile Char.isDigit).isEmpty || !(d2.dropWhile Char.isDigit).isEmpty
      then none
      else if true then some (mkRat mnum (10 ^ (fracLen + digitsNat (d2.takeWhile Char.isDigit))))
      else some (mkRat (mnum * 10 ^ digitsNat (d2.takeWhile Char.isDigit)) (10 ^ fracLen)))
    = some (mkRat mnum (10 ^ (fracLen + digitsNat d2)))
  rw [takeWhile_all hd2, dropWhile_all hd2]
  obtain ⟨c2, t2, rfl⟩ := List.exists_cons_of_ne_nil h2
  rfl

/-- Evaluation of `pyFloatSigned` on `digits e- digits`. -/
theorem pyFloatSigned_expNeg {d1 d2 : List Char} (h1 : d1 ≠ []) (h2 : d2 ≠ [])
    (hd1 : ∀ c ∈ d1, c.isDigit = true) (hd2 : ∀ c ∈ d2, c.isDigit = true) :
    pyFloatSigned 1 (d1 ++ 'e' :: '-' :: d2) =
      some (mkRat (digitsNat d1) (10 ^ digitsNat d2)) := by
  unfold pyFloatSigned
  rw [List.takeWhile_append_of_pos (by simpa using hd1),
    List.dropWhile_append_of_pos (by simpa using hd1)]
  rw [show ('e' :: '-' :: d2).takeWhile Char.isDigit = [] from rfl,
    show ('e' :: '-' :: d2).dropWhile Char.isDigit = 'e' :: '-' :: d2 from rfl,
    List.append_nil]
  obtain ⟨c, t, rfl⟩ := List.exists_cons_of_ne_nil h1
  show pyFloatExp (1 * ((digitsNat ((c :: t) ++ []) : ℕ) : ℤ)) 0 ('-' :: d2) =
    some (mkRat (digitsNat (c :: t)) (10 ^ digitsNat d2))
  rw [List.append_nil, one_mul, pyFloatExp_neg_digits h2 hd2, Nat.zero_add]

/-- Full evaluation of `pyFloat` on `digits e- digits`. -/
theorem pyFloat_expNeg {d1 d2 : List Char} (h1 : d1 ≠ []) (h2 : d2 ≠ [])
    (hd1 : ∀ c ∈ d1, c.isDigit = true) (hd2 : ∀ c ∈ d2, c.isDigit = true) :
    pyFloat (d1 ++ 'e' :: '-' :: d2) =
      some (mkRat (digitsNat d1) (10 ^ digitsNat d2)) := by
  unfold pyFloat
  obtain ⟨c1, t1, rfl⟩ := List.exists_cons_of_ne_nil h1
  obtain ⟨c2, t2, h2r⟩ : ∃ c t, d2.reverse = c :: t := by
    apply List.exists_cons_of_ne_nil
    simpa using h2
  have hc2 : c2 ∈ d2 := by
    rw [← List.mem_reverse, h2r]
    exact List.mem_cons_self _ _
  have hstrip : pyStripWS ((c1 :: t1) ++ 'e' :: '-' :: d2) =
      (c1 :: t1) ++ 'e' :: '-' :: d2 := by
    apply pyStripWS_of_ends
    · intro c t h
      rw [List.cons_append] at h
      injection h with ha hb
      subst ha
      exact isPySpace_of_digit (hd1 _ (List.mem_cons_self _ _))
    · intro c t h
      rw [List.reverse_append,
        show ('e' :: '-' :: d2).reverse = d2.reverse ++ ['-', 'e'] from by simp,
        h2r, List.cons_append, List.cons_append] at h
      injection h with ha hb
      subst ha
      exact isPySpace_of_digit (hd2 _ hc2)
  rw [hstrip, List.cons_append,
    pyFloatNoWS_of_digit (hd1 _ (List.mem_cons_self _ _)), ← List.cons_append]
  exact pyFloatSigned_expNeg h1 h2 hd1 hd2

/-- `process_auto` when only the number grammar matches. -/
theorem process_auto_eval_number {x : String}
    (hm : re_matrix_fullmatch x.data = false)
    (ha : re_array_fullmatch x.data = false)
    (hn : re_number_fullmatch x.data = true) :
    process_auto (some x) =
      (match pyFloat x.data with
        | some q => .ok (.num q)
        | none => .error .valueError) := by
  unfold process_auto
  dsimp only
  rw [hm, ha, hn]
  simp

/-- `process_auto` when nothing matches and there is no newline. -/
theorem process_auto_eval_unchanged {x : String}
    (hm : re_matrix_fullmatch x.data = false)
    (ha : re_array_fullmatch x.data = false)
    (hn : re_number_fullmatch x.data = false)
    (hnl : ¬ '\n' ∈ x.data) :
    process_auto (some x) = .ok (.str x) := by
  unfold process_auto
  dsimp only
  rw [hm, ha, hn]
  simp [hnl]

/-- Invariant of the lock automaton: any thread inside its write+read
cycle is the owner of the in-flight lock. -/
theorem lock_owner_invariant {s : LockState} (h : LockReachable s) :
    ∀ t : Fin 2, inCritical (s.pc t) → s.owner = some t := by
  induction h with
  | refl =>
    intro t ht
    rcases ht with h' | h' | h' <;> simp [LockState.init] at h'
  | tail h1 hstep ih =>
    rename_i sb sc
    cases hstep with
    | acquire t' hpc hown =>
      intro u hu
      dsimp only at hu ⊢
      by_cases hut : u = t'
      · subst hut; rfl
      · rw [show setPC sb.pc t' .acquired u = sb.pc u from by
          unfold setPC; rw [if_neg hut]] at hu
        have hcon := ih u hu
        rw [hown] at hcon
        cases hcon
    | write t' hpc =>
      intro u hu
      dsimp only at hu ⊢
      by_cases hut : u = t'
      · subst hut
        exact ih u (Or.inl hpc)
      · rw [show setPC sb.pc t' .written u = sb.pc u from by
          unfold setPC; rw [if_neg hut]] at hu
        exact ih u hu
    | read t' hpc =>
      intro u hu
      dsimp only at hu ⊢
      by_cases hut : u = t'
      · subst hut
        exact ih u (Or.inr (Or.inl hpc))
      · rw [show setPC sb.pc t' .readDone u = sb.pc u from by
          unfold setPC; rw [if_neg hut]] at hu
        exact ih u hu
    | release t' hpc =>
      intro u hu
      dsimp only at hu ⊢
      by_cases hut : u = t'
      · subst hut
        rw [show setPC sb.pc u .finished u = .finished from by
          unfold setPC; rw [if_pos rfl]] at hu
        rcases hu with h' | h' | h' <;> exact absurd h' (by decide)
      · rw [show setPC sb.pc t' .finished u = sb.pc u from by
          unfold setPC; rw [if_neg hut]] at hu
        have ha := ih u hu
        have hb := ih t' (Or.inr (Or.inr hpc))
        rw [ha] at hb
        exact absurd (Option.some.inj hb) hut

theorem repliesWithin_eq_takeWhile (timeout : ℚ) (replies : List Reply) :
    repliesWithin timeout replies =
      (replies.takeWhile (fun r => decide (r.gap ≤ timeout))).map Reply.addr := by
  induction replies with
  | nil => rfl
  | cons r rs ih =>
    unfold repliesWithin
    rw [List.takeWhile_cons]
    by_cases h : r.gap ≤ timeout
    · simp [h, ih]
    · simp [h]

/-! ## The claims -/

/-- Claim C1: invoking a CommandBuilder transmits exactly one string, the
space-join of the accumulated tokens followed by the call-time arguments,
in append order, each rendered by `str`.  (Hypotheses: the device has a
lead transport whose write does not fail, so the command is actually
transmitted.) -/
theorem xtralien_C1_builder_join (dev : Device) (tokens args : List Token)
    (format : String) (response : Bool) (c : Conn) (rest : List Conn)
    (hconn : dev.connections = c :: rest) (hok : c.failWrite = false) :
    (builderInvoke dev tokens args format response).writes =
      [String.intercalate " " ((tokens ++ args).map Token.toStr)] := by
  unfold builderInvoke Device.call Device.command
  rw [hconn]
  dsimp only
  by_cases hr : c.failRead = true <;> simp [hok, hr]

/-- Witness for C1 at a concrete device, token chain and argument. -/
theorem xtralien_C1_witness :
    (builderInvoke (Device.mk [⟨.socket, "0.1\n", false, false, false⟩])
        [.str "cloupe", .str "set"] [.int 1] "auto" true).writes =
      ["cloupe set 1"] := by
  have h := xtralien_C1_builder_join
    (Device.mk [⟨.socket, "0.1\n", false, false, false⟩])
    [.str "cloupe", .str "set"] [.int 1] "auto" true
    ⟨.socket, "0.1\n", false, false, false⟩ [] rfl rfl
  rw [h]
  decide

/-- Claim C2: the five concrete `auto`-formatting round-trips of the
spec (matrix, array, scientific-notation scalar, two-line text block,
single plain line); the scalar value 0.0015 is the rational 3/2000. -/
theorem xtralien_C2_auto_roundtrips :
    process_auto (some "[1,2;3,4]") = .ok (.mat [[1, 2], [3, 4]]) ∧
    process_auto (some "[1;2;3]") = .ok (.arr [1, 2, 3]) ∧
    process_auto (some "1.5e-3") = .ok (.num (3 / 2000 : ℚ)) ∧
    process_auto (some "hello\nworld") = .ok (.strs ["hello", "world"]) ∧
    process_auto (some "hello") = .ok (.str "hello") := by
  refine ⟨by decide, by decide, ?_, by decide, by decide⟩
  rw [show (3 / 2000 : ℚ) = mkRat 3 2000 from by rw [Rat.mkRat_eq_div]; norm_num]
  decide

/-- Claim C3: a connection-level error during write or read closes the
failing transport, removes it from the device's transport list and
re-raises; a subsequent command with an empty transport list returns
`None` without raising (the failure is only logged). -/
theorem xtralien_C3_failure_removal (c : Conn) (rest : List Conn)
    (cmd cmd2 : String) (returns returns2 : Bool)
    (hfail : c.failWrite = true ∨ c.failRead = true) :
    ((Device.mk (c :: rest)).command cmd returns).result = .error .connectionError ∧
    ((Device.mk (c :: rest)).command cmd returns).dev.connections = rest ∧
    ((Device.mk (c :: rest)).command cmd returns).closedConns = [c.close] ∧
    (c.close).closed = true ∧
    ((Device.mk []).command cmd2 returns2).result = .ok none := by
  unfold Device.command
  rcases hfail with hf | hf
  · simp [hf, Conn.close]
  · by_cases hw : c.failWrite = true <;> simp [hf, hw, Conn.close]

/-- Witness for C3: a socket transport whose write fails. -/
theorem xtralien_C3_witness :
    ((Device.mk [⟨.socket, "", true, false, false⟩]).command "V" true).result =
      .error .connectionError ∧
    ((Device.mk [⟨.socket, "", true, false, false⟩]).command "V" true).dev.connections = [] ∧
    ((Device.mk [⟨.socket, "", true, false, false⟩]).command "V" true).closedConns =
      [(⟨.socket, "", true, false, false⟩ : Conn).close] ∧
    ((⟨.socket, "", true, false, false⟩ : Conn).close).closed = true ∧
    ((Device.mk []).command "I" false).result = .ok none :=
  xtralien_C3_failure_removal ⟨.socket, "", true, false, false⟩ [] "V" "I" true false
    (Or.inl rfl)

/-- Claim C4 (amended): whenever a response is expected (`response=True`;
a callback forces the same `returns=True`), the pool-executed task
performs the same command/read/format pipeline as the synchronous branch
and produces the identical outcome.  (The original claim fails for
`response=False`: `_async_call` hard-codes `returns=True` while the
synchronous branch performs a non-waiting read — see the
counterexample.) -/
theorem xtralien_C4_async_refines_sync (dev : Device) (args : List Token)
    (format : String) (callback : Bool) :
    dev.callAsync args format true callback = dev.call args format true := rfl

/-- Counterexample to C4 as stated: with `response=False` and
`spawn_thread=True` on a serial transport the async path still performs a
waiting read and returns the buffered line, while the synchronous path
returns the empty string. -/
theorem xtralien_C4_counterexample :
    ((Device.mk [⟨.serial, "5\n", false, false, false⟩]).callAsync
        [.str "measure"] "auto" false false).result ≠
      ((Device.mk [⟨.serial, "5\n", false, false, false⟩]).call
        [.str "measure"] "auto" false).result := by
  decide

/-- Claim C5 (amended): the code's number grammar admits only a MINUS
sign on the exponent (`e-?` in `number_regex`), not the spec's optional
`+`/`-`.  Every string `digits e- digits` is classified as a bare number
and formatted to the corresponding float (mantissa divided by ten to the
exponent), while every string `digits e+ digits` is not classified as a
number and is returned unchanged as text. -/
theorem xtralien_C5_exponent_grammar (d1 d2 : List Char) (h1 : d1 ≠ []) (h2 : d2 ≠ [])
    (hd1 : ∀ c ∈ d1, c.isDigit = true) (hd2 : ∀ c ∈ d2, c.isDigit = true) :
    process_auto (some ⟨d1 ++ 'e' :: '-' :: d2⟩) =
      .ok (.num ((digitsNat d1 : ℚ) / 10 ^ digitsNat d2)) ∧
    process_auto (some ⟨d1 ++ 'e' :: '+' :: d2⟩) =
      .ok (.str ⟨d1 ++ 'e' :: '+' :: d2⟩) := by
  obtain ⟨c1, t1, hc⟩ := List.exists_cons_of_ne_nil h1
  have hc1d : c1.isDigit = true := hd1 c1 (by rw [hc]; exact List.mem_cons_self _ _)
  have hbr : c1 ≠ '[' := by rintro rfl; exact absurd hc1d (by decide)
  constructor
  · have hm : re_matrix_fullmatch (String.mk (d1 ++ 'e' :: '-' :: d2)).data = false := by
      show re_matrix_fullmatch (d1 ++ 'e' :: '-' :: d2) = false
      rw [hc, List.cons_append]
      exact re_matrix_fullmatch_of_head hbr
    have ha : re_array_fullmatch (String.mk (d1 ++ 'e' :: '-' :: d2)).data = false := by
      show re_array_fullmatch (d1 ++ 'e' :: '-' :: d2) = false
      rw [hc, List.cons_append]
      exact re_array_fullmatch_of_head hbr
    have hn : re_number_fullmatch (String.mk (d1 ++ 'e' :: '-' :: d2)).data = true := by
      show re_number_fullmatch (d1 ++ 'e' :: '-' :: d2) = true
      unfold re_number_fullmatch
      rw [matchNumber_expNeg h1 h2 hd1 hd2]
      rfl
    rw [process_auto_eval_number hm ha hn]
    show (match pyFloat (d1 ++ 'e' :: '-' :: d2) with
      | some q => Except.ok (PyValue.num q)
      | none => Except.error PyErr.valueError) =
      Except.ok (PyValue.num ((digitsNat d1 : ℚ) / 10 ^ digitsNat d2))
    rw [pyFloat_expNeg h1 h2 hd1 hd2]
    have hval : (mkRat (digitsNat d1) (10 ^ digitsNat d2) : ℚ) =
        (digitsNat d1 : ℚ) / 10 ^ digitsNat d2 := by
      rw [Rat.mkRat_eq_div]
      push_cast
      ring
    rw [hval]
  · have hm : re_matrix_fullmatch (String.mk (d1 ++ 'e' :: '+' :: d2)).data = false := by
      show re_matrix_fullmatch (d1 ++ 'e' :: '+' :: d2) = false
      rw [hc, List.cons_append]
      exact re_matrix_fullmatch_of_head hbr
    have ha : re_array_fullmatch (String.mk (d1 ++ 'e' :: '+' :: d2)).data = false := by
      show re_array_fullmatch (d1 ++ 'e' :: '+' :: d2) = false
      rw [hc, List.cons_append]
      exact re_array_fullmatch_of_head hbr
    have hn : re_number_fullmatch (String.mk (d1 ++ 'e' :: '+' :: d2)).data = false := by
      show re_number_fullmatch (d1 ++ 'e' :: '+' :: d2) = false
      unfold re_number_fullmatch
      rw [matchNumber_expPos h1 hd1]
      exact optNewlineEnd_of_head (by decide)
    have hnl : ¬ '\n' ∈ (String.mk (d1 ++ 'e' :: '+' :: d2)).data := by
      show ¬ '\n' ∈ (d1 ++ 'e' :: '+' :: d2)
      intro hmem
      rcases List.mem_append.mp hmem with hin | hin
      · exact absurd (hd1 _ hin) (by decide)
      · rcases List.mem_cons.mp hin with heq | hin2
        · exact absurd heq (by decide)
        · rcases List.mem_cons.mp hin2 with heq | hin3
          · exact absurd heq (by decide)
          · exact absurd (hd2 _ hin3) (by decide)
    exact process_auto_eval_unchanged hm ha hn hnl

/-- Witness for C5 at `1e-5` and `1e+5`. -/
theorem xtralien_C5_witness :
    process_auto (some ⟨['1'] ++ 'e' :: '-' :: ['5']⟩) =
      .ok (.num ((digitsNat ['1'] : ℚ) / 10 ^ digitsNat ['5'])) ∧
    process_auto (some ⟨['1'] ++ 'e' :: '+' :: ['5']⟩) =
      .ok (.str ⟨['1'] ++ 'e' :: '+' :: ['5']⟩) :=
  xtralien_C5_exponent_grammar ['1'] ['5'] (by decide) (by decide) (by decide)
    (by decide)

/-- Counterexample to C5 as stated: `1e+5` conforms to the spec's grammar
(`digits e+ digits`) but is NOT matched by the code's number regex, and
`process_auto` returns it unchanged as text instead of a float. -/
theorem xtralien_C5_counterexample :
    re_number_fullmatch "1e+5".data = false ∧
    process_auto (some "1e+5") = .ok (.str "1e+5") := by
  exact ⟨by decide, by decide⟩

theorem lor_shift_eq_add {a : ℕ} (c k : ℕ) (h : a < 2 ^ k) :
    a ||| (c <<< k) = c * 2 ^ k + a := by
  rw [Nat.shiftLeft_eq]
  calc a ||| c * 2 ^ k = c * 2 ^ k ||| a := Nat.or_comm _ _
    _ = 2 ^ k * c ||| a := by rw [Nat.mul_comm]
    _ = 2 ^ k * c + a := (Nat.mul_add_lt_is_or h c).symm
    _ = c * 2 ^ k + a := by rw [Nat.mul_comm]

theorem and_shiftRight (x y s : ℕ) :
    (x &&& y) >>> s = (x >>> s) &&& (y >>> s) := by
  apply Nat.eq_of_testBit_eq
  intro i
  simp [Nat.testBit_shiftRight, Nat.testBit_and]

/-- Under the field-width bounds the packed serial word is the plain sum
of the shifted fields. -/
theorem serialPack_eq_add (board week year model product : ℕ)
    (hb : board < 2 ^ 16) (hw : week < 2 ^ 6) (hy : year < 2 ^ 8)
    (hm : model < 2 ^ 8) (hp : product < 2 ^ 10) :
    serialPack board week year model product =
      board + week * 2 ^ 16 + year * 2 ^ 22 + model * 2 ^ 30 +
        product * 2 ^ 38 := by
  unfold serialPack
  have e16 : (0xffff : ℕ) = 2 ^ 16 - 1 := by norm_num
  have e6 : (0x3f : ℕ) = 2 ^ 6 - 1 := by norm_num
  have e8 : (0xff : ℕ) = 2 ^ 8 - 1 := by norm_num
  have e10 : (0x3ff : ℕ) = 2 ^ 10 - 1 := by norm_num
  rw [Nat.zero_or, e16, e6, e8, e10,
    Nat.and_pow_two_sub_one_of_lt_two_pow hb,
    Nat.and_pow_two_sub_one_of_lt_two_pow hw,
    Nat.and_pow_two_sub_one_of_lt_two_pow hy,
    Nat.and_pow_two_sub_one_of_lt_two_pow hm,
    Nat.and_pow_two_sub_one_of_lt_two_pow hp]
  rw [lor_shift_eq_add week 16 hb]
  rw [lor_shift_eq_add year 22 (by nlinarith)]
  rw [lor_shift_eq_add model 30 (by nlinarith)]
  rw [lor_shift_eq_add product 38 (by nlinarith)]
  ring

/-- Claim C6: the setter's mask-and-shift packing followed by the
getter's mask-and-shift decoding recovers every field exactly, for all
in-range field values. -/
theorem xtralien_C6_serial_roundtrip (board week year model product : ℕ)
    (hb : board < 2 ^ 16) (hw : week < 2 ^ 6) (hy : year < 2 ^ 8)
    (hm : model < 2 ^ 8) (hp : product < 2 ^ 10) :
    serialUnpackBoard (serialPack board week year model product) = board ∧
    serialUnpackWeek (serialPack board week year model product) = week ∧
    serialUnpackYear (serialPack board week year model product) = year ∧
    serialUnpackModel (serialPack board week year model product) = model ∧
    serialUnpackProduct (serialPack board week year model product) = product := by
  unfold serialUnpackBoard serialUnpackWeek serialUnpackYear
    serialUnpackModel serialUnpackProduct
  rw [serialPack_eq_add board week year model product hb hw hy hm hp]
  refine ⟨?_, ?_, ?_, ?_, ?_⟩
  · rw [show (0x00000000FFFF : ℕ) = 2 ^ 16 - 1 by norm_num,
      Nat.and_pow_two_sub_one_eq_mod]
    omega
  · rw [and_shiftRight, show ((0x0000003F0000 : ℕ) >>> 16) = 2 ^ 6 - 1 by decide,
      Nat.and_pow_two_sub_one_eq_mod, Nat.shiftRight_eq_div_pow]
    omega
  · rw [and_shiftRight, show ((0x00003FC00000 : ℕ) >>> 22) = 2 ^ 8 - 1 by decide,
      Nat.and_pow_two_sub_one_eq_mod, Nat.shiftRight_eq_div_pow]
    omega
  · rw [and_shiftRight, show ((0x003FC0000000 : ℕ) >>> 30) = 2 ^ 8 - 1 by decide,
      Nat.and_pow_two_sub_one_eq_mod, Nat.shiftRight_eq_div_pow]
    omega
  · rw [and_shiftRight, show ((0xFFC000000000 : ℕ) >>> 38) = 2 ^ 10 - 1 by decide,
      Nat.and_pow_two_sub_one_eq_mod, Nat.shiftRight_eq_div_pow]
    omega

/-- Witness for C6 at the spec's example
`{board_number:1, week:10, year:24, model:2, product:5}`. -/
theorem xtralien_C6_witness :
    serialUnpackBoard (serialPack 1 10 24 2 5) = 1 ∧
    serialUnpackWeek (serialPack 1 10 24 2 5) = 10 ∧
    serialUnpackYear (serialPack 1 10 24 2 5) = 24 ∧
    serialUnpackModel (serialPack 1 10 24 2 5) = 2 ∧
    serialUnpackProduct (serialPack 1 10 24 2 5) = 5 :=
  xtralien_C6_serial_roundtrip 1 10 24 2 5 (by norm_num) (by norm_num)
    (by norm_num) (by norm_num) (by norm_num)

/-- Claim C7: `dup()` allocates an independent builder holding a copy of
the current token sequence: appends to the duplicate never change the
original builder's sequence and appends to the original never change the
duplicate's. -/
theorem xtralien_C7_dup_independent (store : BuilderStore) (i : ℕ) (t u : Token)
    (hi : i < store.length) :
    (builderDup store i).1.getD (builderDup store i).2 [] = store.getD i [] ∧
    (builderStep (builderDup store i).1 (builderDup store i).2 t).getD i [] =
      (builderDup store i).1.getD i [] ∧
    (builderStep (builderDup store i).1 i u).getD (builderDup store i).2 [] =
      (builderDup store i).1.getD (builderDup store i).2 [] := by
  unfold builderDup builderStep
  dsimp only
  have hij : i ≠ store.length := Nat.ne_of_lt hi
  refine ⟨?_, ?_, ?_⟩
  · simp [List.getD_eq_getElem?_getD, List.getElem?_concat_length]
  · simp [List.getD_eq_getElem?_getD, List.getElem?_set_ne (Ne.symm hij),
      List.getElem?_append_left hi]
  · simp [List.getD_eq_getElem?_getD, List.getElem?_set_ne hij]

/-- Witness for C7: one builder holding `[cloupe]`, duplicated, each side
appending a different token. -/
theorem xtralien_C7_witness :
    (builderDup [[Token.str "cloupe"]] 0).1.getD
        (builderDup [[Token.str "cloupe"]] 0).2 [] =
      [[Token.str "cloupe"]].getD 0 [] ∧
    (builderStep (builderDup [[Token.str "cloupe"]] 0).1
        (builderDup [[Token.str "cloupe"]] 0).2 (Token.str "set")).getD 0 [] =
      (builderDup [[Token.str "cloupe"]] 0).1.getD 0 [] ∧
    (builderStep (builderDup [[Token.str "cloupe"]] 0).1 0
        (Token.str "get")).getD (builderDup [[Token.str "cloupe"]] 0).2 [] =
      (builderDup [[Token.str "cloupe"]] 0).1.getD
        (builderDup [[Token.str "cloupe"]] 0).2 [] :=
  xtralien_C7_dup_independent [[Token.str "cloupe"]] 0 (Token.str "set")
    (Token.str "get") (by decide)

/-- Claim C8 (amended): discovery returns one Device, connected to the
reply's source address on TCP port 8888, PER REPLY DATAGRAM accepted
inside the sliding inactivity window, in arrival order — a host that
sends several datagrams within the window yields several Devices. -/
theorem xtralien_C8_device_per_datagram (timeout : ℚ) (replies : List Reply) :
    discover timeout replies =
      (replies.takeWhile (fun r => decide (r.gap ≤ timeout))).map
        (fun r => (r.addr, 8888)) := by
  unfold discover
  rw [repliesWithin_eq_takeWhile, List.map_map]
  rfl

/-- Counterexample to C8 as stated: a single host replying twice inside
the window yields TWO devices, not one per distinct host. -/
theorem xtralien_C8_counterexample :
    discover 1 [⟨0, "10.0.0.7"⟩, ⟨0, "10.0.0.7"⟩] =
      [("10.0.0.7", 8888), ("10.0.0.7", 8888)] ∧
    discover 1 [⟨0, "10.0.0.7"⟩, ⟨0, "10.0.0.7"⟩] ≠ [("10.0.0.7", 8888)] := by
  exact ⟨by decide, by decide⟩

/-- Claim C9: both I/O paths (the synchronous branch of `__call__` and
the pool-executed `_async_call`) hold the in-flight lock for the whole
write+read cycle, so in no reachable state of the two-caller lock
automaton are two distinct threads inside their transport write+read
cycles simultaneously: concurrent callers never interleave transport
operations. -/
theorem xtralien_C9_mutual_exclusion (s : LockState) (h : LockReachable s)
    (t u : Fin 2) (hne : t ≠ u) (ht : inCritical (s.pc t)) :
    ¬ inCritical (s.pc u) := by
  intro hu
  have h1 := lock_owner_invariant h t ht
  have h2 := lock_owner_invariant h u hu
  rw [h1] at h2
  exact hne (Option.some.inj h2)

/-- Witness for C9: after thread 0 acquires and writes, thread 1 is not
inside a write+read cycle. -/
theorem xtralien_C9_witness :
    ¬ inCritical
      ((⟨some 0, setPC (setPC (fun _ => LockPC.start) 0 .acquired) 0 .written⟩ :
        LockState).pc 1) := by
  have hreach : LockReachable
      ⟨some 0, setPC (setPC (fun _ => LockPC.start) 0 .acquired) 0 .written⟩ :=
    Relation.ReflTransGen.tail
      (Relation.ReflTransGen.tail Relation.ReflTransGen.refl
        (LockStep.acquire LockState.init 0 rfl rfl))
      (LockStep.write ⟨some 0, setPC (fun _ => LockPC.start) 0 .acquired⟩ 0 rfl)
  exact xtralien_C9_mutual_exclusion _ hreach 0 1 (by decide)
    (Or.inr (Or.inl rfl))

/-- Claim C10: with an empty transport list a synchronous call with the
default `auto` format returns `None` without raising (`command` falls
through its loop and returns `None`; `process_auto` passes `None`
through), while the `number` formatter raises (`float(None)` is a
`TypeError`). -/
theorem xtralien_C10_empty_returns_none (dev : Device) (args : List Token)
    (h : dev.connections = []) :
    (dev.call args "auto" true).result = .ok .none ∧
    (dev.call args "number" true).result = .error .typeError := by
  unfold Device.call Device.command
  rw [h]
  exact ⟨rfl, rfl⟩

/-- Witness for C10 at a transportless device. -/
theorem xtralien_C10_witness :
    ((Device.mk []).call [.str "V"] "auto" true).result = .ok .none ∧
    ((Device.mk []).call [.str "V"] "number" true).result = .error .typeError :=
  xtralien_C10_empty_returns_none (Device.mk []) [.str "V"] rfl
